import Mathlib

/-!
Verification of the `breaks-machine` drum-loop time-stretching tool.

This file gives a shallow embedding of the pure decision logic of the tool
(`src/breaks_machine/detector.py`, `processor.py`, `stretcher.py`) and proves
the behavioural properties stated in the specification.

Modelling conventions:
* Python `float` values are modelled as exact rationals (`ℚ`); the claims under
  scrutiny are about the selection/decision algorithms, not float rounding.
* Python regular-expression matching is embedded as explicit left-to-right
  scanning with greedy backtracking, specialised to the three fixed patterns
  used by the code.
* Fallible Python code (functions that may raise `ValueError` or
  `BPMDetectionError`) is modelled with `Except String`.
* File-system effects (reading, writing, copying) are modelled symbolically:
  a stretch invocation is a record of the arguments passed to the stretch
  engine together with the way the output bytes are produced.
-/

/-! ## Character and string utilities (Python semantics) -/

/-- Python's `\s` character class restricted to ASCII: the whitespace
characters recognised by `str.strip()` and the regex separator classes. -/
def pyIsSpace (c : Char) : Bool :=
  c = ' ' || c = '\t' || c = '\n' || c = '\r' || c = '\x0b' || c = '\x0c'

/-- The regex character class `[\s_-]` used by the BPM filename patterns. -/
def isSepChar (c : Char) : Bool :=
  pyIsSpace c || c = '_' || c = '-'

/-- The regex character class `[_-]` used by the trailing-number patterns. -/
def isUH (c : Char) : Bool :=
  c = '_' || c = '-'

/-- Numeric value of a list of decimal digit characters (e.g. `['1','4','0'] ↦ 140`). -/
def digitsVal (ds : List Char) : ℕ :=
  ds.foldl (fun acc c => 10 * acc + (c.toNat - '0'.toNat)) 0

/-- Match exactly `n` decimal digits at the head of the character list,
returning the digit block and the remaining suffix (regex `\d{n}`). -/
def splitDigits : ℕ → List Char → Option (List Char × List Char)
  | 0, cs => some ([], cs)
  | _ + 1, [] => none
  | n + 1, c :: cs =>
    if c.isDigit then
      match splitDigits n cs with
      | some (ds, rest) => some (c :: ds, rest)
      | none => none
    else none

/-- Python `str.strip()`: remove leading and trailing whitespace. -/
def pyStrip (cs : List Char) : List Char :=
  ((cs.dropWhile pyIsSpace).reverse.dropWhile pyIsSpace).reverse

/-- Python `str.split(sep)` for a one-character separator: split on every
occurrence, keeping empty pieces (`"".split(sep) == [""]`). -/
def splitOnChar (sep : Char) : List Char → List (List Char)
  | [] => [[]]
  | c :: rest =>
    let r := splitOnChar sep rest
    if c = sep then [] :: r
    else
      match r with
      | h :: t => (c :: h) :: t
      | [] => [[c]]

/-- Python `s.split(sep)` lifted to `String`. -/
def pySplit (s : String) (sep : Char) : List String :=
  (splitOnChar sep s.data).map fun cs => ⟨cs⟩

/-! ## Filename tempo parsing (`detector.parse_bpm_from_filename`) -/

/-- Does the character list start with the case-insensitive token `bpm`? -/
def startsWithBpm (cs : List Char) : Bool :=
  match cs with
  | b :: p :: m :: _ => b.toLower = 'b' && p.toLower = 'p' && m.toLower = 'm'
  | _ => false

/-- Consume a case-insensitive `bpm` token at the head, returning the suffix. -/
def dropBpm (cs : List Char) : Option (List Char) :=
  match cs with
  | b :: p :: m :: rest =>
    if b.toLower = 'b' && p.toLower = 'p' && m.toLower = 'm' then some rest else none
  | _ => none

/-- Try `(\d{n})[\s_-]?bpm` anchored at the head (greedy optional separator):
returns the captured numeral. -/
def pat1Len (n : ℕ) (cs : List Char) : Option ℕ :=
  match splitDigits n cs with
  | some (ds, rest) =>
    match rest with
    | c :: rest2 =>
      if isSepChar c && startsWithBpm rest2 then some (digitsVal ds)
      else if startsWithBpm rest then some (digitsVal ds)
      else none
    | [] => none
  | none => none

/-- Try `(\d{2,3})[\s_-]?bpm` anchored at the head: greedy `\d{2,3}` tries
three digits first, backtracking to two. -/
def pat1At (cs : List Char) : Option ℕ :=
  (pat1Len 3 cs).orElse fun _ => pat1Len 2 cs

/-- `re.search` for pattern `(\d{2,3})[\s_-]?bpm` (case-insensitive):
leftmost match wins. -/
def searchPat1 : List Char → Option ℕ
  | [] => none
  | c :: cs => (pat1At (c :: cs)).orElse fun _ => searchPat1 cs

/-- Try `^(\d{n})[\s_-]` anchored at the head. -/
def pat2Len (n : ℕ) (cs : List Char) : Option ℕ :=
  match splitDigits n cs with
  | some (ds, c :: _) => if isSepChar c then some (digitsVal ds) else none
  | _ => none

/-- `re.match` for pattern `^(\d{2,3})[\s_-]`: a 2–3 digit run at the very
start followed by a separator. -/
def matchPat2 (cs : List Char) : Option ℕ :=
  (pat2Len 3 cs).orElse fun _ => pat2Len 2 cs

/-- Try `[_-](\d{n})(?:[_-]|$)` anchored at the head. -/
def pat3Len (n : ℕ) (cs : List Char) : Option ℕ :=
  match cs with
  | c :: rest =>
    if isUH c then
      match splitDigits n rest with
      | some (ds, []) => some (digitsVal ds)
      | some (ds, c2 :: _) => if isUH c2 then some (digitsVal ds) else none
      | none => none
    else none
  | [] => none

/-- Try `[_-](\d{2,3})(?:[_-]|$)` anchored at the head (greedy digit run). -/
def pat3At (cs : List Char) : Option ℕ :=
  (pat3Len 3 cs).orElse fun _ => pat3Len 2 cs

/-- `re.search` for pattern `[_-](\d{2,3})(?:[_-]|$)`: leftmost match wins. -/
def searchPat3 : List Char → Option ℕ
  | [] => none
  | c :: cs => (pat3At (c :: cs)).orElse fun _ => searchPat3 cs

/-! ## Path decomposition (`pathlib.Path.name/.stem/.suffix`) -/

/-- `pathlib.Path.name`: the final path component (after the last `/`). -/
def pathName (p : String) : String :=
  ((splitOnChar '/' p.data).map fun cs => (⟨cs⟩ : String)).getLastD ""

/-- Index of the last `.` in the character list (Python `str.rfind('.')`). -/
def lastDotPos (cs : List Char) : Option ℕ :=
  match cs.reverse.findIdx? (fun c => c = '.') with
  | some j => some (cs.length - 1 - j)
  | none => none

/-- `pathlib.PurePath.stem` on a file name: the name with its last suffix
removed, where a suffix exists only when the last dot is at an index `i` with
`0 < i < len - 1`. -/
def pathStem (name : String) : String :=
  match lastDotPos name.data with
  | some i => if 0 < i ∧ i < name.data.length - 1 then ⟨name.data.take i⟩ else name
  | none => name

/-- `pathlib.PurePath.suffix` on a file name: the last extension including the
dot, or `""` when there is none. -/
def pathSuffix (name : String) : String :=
  match lastDotPos name.data with
  | some i => if 0 < i ∧ i < name.data.length - 1 then ⟨name.data.drop i⟩ else ""
  | none => ""

/-- Band filter used by all three filename patterns: a matched numeral is
accepted only if it lies in `[90, 180]`; otherwise the pattern yields nothing
and the next pattern is tried (`detector.py` lines 36–57). -/
def bandToQ (o : Option ℕ) : Option ℚ :=
  match o with
  | some b => if 90 ≤ b ∧ b ≤ 180 then some (b : ℚ) else none
  | none => none

/-- `detector.parse_bpm_from_filename`: extract a BPM from the file name
(stem) using the three naming-convention patterns, in priority order, each
accepted only in the `[90, 180]` band; `none` when nothing matches. -/
def parse_bpm_from_filename (file_path : String) : Option ℚ :=
  let filename := (pathStem (pathName file_path)).data
  (bandToQ (searchPat1 filename)).orElse fun _ =>
    (bandToQ (matchPat2 filename)).orElse fun _ =>
      bandToQ (searchPat3 filename)

example : parse_bpm_from_filename "amen_170.wav" = some 170 := by decide
example : parse_bpm_from_filename "164_HT_Drums.wav" = some 164 := by decide
example : parse_bpm_from_filename "break-140bpm.flac" = some 140 := by decide
example : parse_bpm_from_filename "think_120_BPM.wav" = some 120 := by decide
example : parse_bpm_from_filename "track_01.wav" = none := by decide
example : parse_bpm_from_filename "sample_500.wav" = none := by decide

/-! ## BPM-marker stripping (`processor.strip_bpm_from_filename`) -/

/-- After the digit block of the strip pattern `[\s_-]?(\d{2,3})[\s_-]?bpm`:
match `[\s_-]?bpm` greedily (separator consumed first when the token still
follows), returning the suffix after the whole match. -/
def stripTail (rest : List Char) : Option (List Char) :=
  match rest with
  | c :: rest2 =>
    if isSepChar c then
      match dropBpm rest2 with
      | some r => some r
      | none => dropBpm rest
    else dropBpm rest
  | [] => none

/-- Try `(\d{n})[\s_-]?bpm` anchored at the head, returning the suffix after
the match. -/
def matchStripLen (n : ℕ) (cs : List Char) : Option (List Char) :=
  match splitDigits n cs with
  | some (_, rest) => stripTail rest
  | none => none

/-- Try `(\d{2,3})[\s_-]?bpm` anchored at the head (greedy digit run). -/
def matchStripCore (cs : List Char) : Option (List Char) :=
  (matchStripLen 3 cs).orElse fun _ => matchStripLen 2 cs

/-- Try the full strip pattern `[\s_-]?(\d{2,3})[\s_-]?bpm` anchored at the
head: the leading optional separator is greedy, backtracking to the
zero-width alternative when the rest of the pattern fails. -/
def matchStripAt (cs : List Char) : Option (List Char) :=
  match cs with
  | c :: rest =>
    if isSepChar c then
      match matchStripCore rest with
      | some r => some r
      | none => matchStripCore cs
    else matchStripCore cs
  | [] => none

/-- `re.sub(r"[\s_-]?(\d{2,3})[\s_-]?bpm", "", s, flags=re.IGNORECASE)`:
remove every non-overlapping leftmost match. The fuel argument (initialised
to the input length) only bounds the recursion; every match consumes at least
five characters, so the fuel never runs out before the input does. -/
def subStripAux : ℕ → List Char → List Char
  | 0, cs => cs
  | _ + 1, [] => []
  | n + 1, c :: cs =>
    match matchStripAt (c :: cs) with
    | some rest => subStripAux n rest
    | none => c :: subStripAux n cs

/-- All-occurrence deletion of the `number+bpm` marker pattern. -/
def subStripAll (cs : List Char) : List Char :=
  subStripAux cs.length cs

/-- Does `[_-](\d{n})$` match exactly here, reaching the end of the name? -/
def matchTrailLen (n : ℕ) (cs : List Char) : Bool :=
  match splitDigits n cs with
  | some (_, []) => true
  | _ => false

/-- Does the trailing pattern `[_-](\d{2,3})$` match at this position? -/
def matchTrailAt (cs : List Char) : Bool :=
  match cs with
  | c :: rest => isUH c && (matchTrailLen 3 rest || matchTrailLen 2 rest)
  | [] => false

/-- `re.sub(r"[_-](\d{2,3})$", "", s)`: delete a trailing `_NNN`/`-NNN`
marker (the match necessarily extends to the end of the string). -/
def subTrail : List Char → List Char
  | [] => []
  | c :: cs => if matchTrailAt (c :: cs) then [] else c :: subTrail cs

/-- `processor.strip_bpm_from_filename`: remove the `number+bpm` markers, then
a trailing `_NNN`/`-NNN` marker. -/
def strip_bpm_from_filename (s : String) : String :=
  ⟨subTrail (subStripAll s.data)⟩

example : strip_bpm_from_filename "amen_170" = "amen" := by decide
example : strip_bpm_from_filename "break-140bpm" = "break" := by decide
example : strip_bpm_from_filename "loop_160_BPM" = "loop" := by decide
example : strip_bpm_from_filename "funky_break" = "funky_break" := by decide

/-! ## Stretch planning (`stretcher.py`) -/

/-- `stretcher.calculate_stretch_ratio`: the playback-rate factor
`target_bpm / source_bpm` handed to the stretch engine. -/
def calculate_stretch_ratio (source_bpm target_bpm : ℚ) : ℚ :=
  target_bpm / source_bpm

/-- How the bytes of an output file are produced. -/
inductive OutputMethod
  /-- A byte-for-byte copy of the input file. -/
  | byteCopy
  /-- Decoded with `soundfile.read`, passed through `pyrubberband.time_stretch`,
  and re-encoded with `soundfile.write` (the only path present in
  `stretcher.stretch_audio`). -/
  | reencode
  deriving DecidableEq

/-- Symbolic record of one invocation of the stretch machinery: the arguments
passed plus the way the output bytes are produced. -/
structure StretchCall where
  input : String
  output : String
  rate : ℚ
  crispness : ℤ
  method : OutputMethod
  deriving DecidableEq

/-- `stretcher.stretch_audio` (lines 57–95): reads the input, calls
`pyrubberband.time_stretch` with the given rate, and re-encodes the result
with `soundfile.write`; there is no branch on the value of the rate. -/
def stretch_audio (input_path output_path : String) (ratio : ℚ) (crispness : ℤ) :
    StretchCall :=
  ⟨input_path, output_path, ratio, crispness, OutputMethod.reencode⟩

/-- `stretcher.stretch_to_bpm` (lines 98–116): computes the stretch ratio and
unconditionally delegates to `stretch_audio`. -/
def stretch_to_bpm (input_path output_path : String) (source_bpm target_bpm : ℚ)
    (crispness : ℤ) : StretchCall :=
  stretch_audio input_path output_path
    (calculate_stretch_ratio source_bpm target_bpm) crispness

/-! ## Output-path generation (`processor.generate_output_path`) -/

/-- Python `int()` applied to a rational: truncation toward zero. -/
def pyTrunc (q : ℚ) : ℤ :=
  q.num.tdiv q.den

/-- Decimal digits of a natural number (fuel-bounded division loop). -/
def natToStrAux : ℕ → ℕ → List Char
  | 0, _ => []
  | fuel + 1, n =>
    if n < 10 then [Char.ofNat ('0'.toNat + n)]
    else natToStrAux fuel (n / 10) ++ [Char.ofNat ('0'.toNat + n % 10)]

/-- Decimal rendering of a natural number. -/
def natToStr (n : ℕ) : String :=
  ⟨natToStrAux (n + 1) n⟩

/-- Decimal rendering of an integer (Python `f"{z}"`). -/
def intToStr (z : ℤ) : String :=
  if z < 0 then "-" ++ natToStr (-z).toNat else natToStr z.toNat

/-- `processor.generate_output_path`: the output is written to
`output_dir/<stem>/<strippedBase>_<int(targetBPM)><ext>`. -/
def generate_output_path (input_path output_dir : String) (target_bpm : ℚ) : String :=
  let stem := pathStem (pathName input_path)
  let ext := pathSuffix (pathName input_path)
  let base_name := strip_bpm_from_filename stem
  output_dir ++ "/" ++ stem ++ "/" ++ (base_name ++ "_" ++ intToStr (pyTrunc target_bpm) ++ ext)

example : generate_output_path "amen_170.wav" "/out" 120 = "/out/amen_170/amen_120.wav" := by
  decide

/-! ## Acoustic tempo estimation (`detector.detect_bpm_with_librosa`) -/

/-- Python `min(xs, key=k)` on the non-empty list `x :: xs`: the first element
attaining the smallest key. -/
def pyMinBy (k : ℚ → ℚ) (x : ℚ) (xs : List ℚ) : ℚ :=
  xs.foldl (fun best a => if k a < k best then a else best) x

/-- Distance to the breakbeat-range centre used as selection key (`target = 160`). -/
def dist160 (x : ℚ) : ℚ :=
  |x - 160|

/-- The range filter `80 <= bpm <= 200` (`detector.py` lines 104, 112). -/
def inRange80200 (b : ℚ) : Bool :=
  decide (80 ≤ b) && decide (b ≤ 200)

/-- The four harmonic/subdivision variants synthesised for each raw candidate,
together with the candidate itself (`detector.py` lines 96–101). -/
def expandCandidate (bpm : ℚ) : List ℚ :=
  [bpm, bpm * 2, bpm * 1.5, bpm * (4 / 3), bpm / 1.5]

/-- Python `sorted(set(raw))`: the deduplicated candidates in ascending order
(`detector.py` line 91). -/
def sortedCandidates (raw : List ℚ) : List ℚ :=
  List.insertionSort (· ≤ ·) raw.dedup

/-- Python `sorted(set(...))` over the harmonically expanded candidates kept
in `[80, 200]` (`detector.py` line 104). -/
def validCandidates (raw : List ℚ) : List ℚ :=
  List.insertionSort (· ≤ ·)
    (((sortedCandidates raw).flatMap expandCandidate).filter inRange80200).dedup

/-- The candidate-selection algorithm of `detector.detect_bpm_with_librosa`
(lines 91–124), as a function of the concatenated raw tempo candidates
returned by the three prior-seeded runs of the estimation primitive:
deduplicate and sort, expand harmonically, filter to `[80, 200]`, then pick
the in-range direct detection closest to 160, else the in-range expanded
value closest to 160, else the first (smallest) sorted raw candidate,
else `120.0`. -/
def detect_bpm_selection (raw : List ℚ) : ℚ :=
  match validCandidates raw with
  | [] =>
    match sortedCandidates raw with
    | [] => 120
    | c :: _ => c
  | v :: vs =>
    match (sortedCandidates raw).filter inRange80200 with
    | d :: ds => pyMinBy dist160 d ds
    | [] => pyMinBy dist160 v vs

/-! ## Tempo matching and resolution (`detector.bpms_match`, `detector.get_source_bpm`) -/

/-- `detector.bpms_match`: tolerance-based equality also accepting half-time
and double-time relationships. -/
def bpms_match (bpm1 bpm2 tolerance : ℚ) : Bool :=
  if |bpm1 - bpm2| ≤ tolerance then true
  else if |bpm1 - bpm2 * 2| ≤ tolerance then true
  else if |bpm1 * 2 - bpm2| ≤ tolerance then true
  else false

/-- `detector.get_source_bpm`: resolve the source tempo with priority
manual > filename > acoustic.  The `acoustic` argument is the outcome of the
(external) `detect_bpm_with_librosa` call, `Except.error` modelling a raised
exception.  The warning callback never influences the returned value, so it
is not modelled. -/
def get_source_bpm (file_path : String) (manual_bpm : Option ℚ) (warn : Bool)
    (acoustic : Except String ℚ) : Except String ℚ :=
  match manual_bpm with
  | some m => .ok m
  | none =>
    let filename_bpm := parse_bpm_from_filename file_path
    let detectStep : Except String (Option ℚ) :=
      if filename_bpm.isNone || warn then
        match acoustic with
        | .ok d => .ok (some d)
        | .error e =>
          if filename_bpm.isNone then
            .error ("Could not determine BPM for " ++ file_path ++ ": " ++ e)
          else .ok none
      else .ok none
    match detectStep with
    | .error e => .error e
    | .ok detected_bpm =>
      match filename_bpm with
      | some fb => .ok fb
      | none =>
        match detected_bpm with
        | some d => .ok d
        | none => .error ("Could not determine BPM for " ++ file_path)

/-! ## Target parsing (`processor.parse_targets`) -/

/-- Python `float(s)` on plain decimal literals (optional sign, digits,
optional fractional part); exponent and special forms are not used by the
CLI's BPM strings and are not modelled. -/
def parseUnsignedDecimal (cs : List Char) : Option ℚ :=
  let intPart := cs.takeWhile Char.isDigit
  let rest := cs.dropWhile Char.isDigit
  match rest with
  | [] => if intPart.isEmpty then none else some ((digitsVal intPart : ℤ) : ℚ)
  | '.' :: frac =>
    if frac.all Char.isDigit && !(intPart.isEmpty && frac.isEmpty) then
      some (((digitsVal intPart : ℤ) : ℚ) + (digitsVal frac : ℚ) / (10 : ℚ) ^ frac.length)
    else none
  | _ => none

/-- Python `float(s.strip())` as used by `parse_targets` on each comma piece. -/
def pyFloat (s : String) : Option ℚ :=
  match pyStrip s.data with
  | '-' :: rest => (parseUnsignedDecimal rest).map fun q => -q
  | '+' :: rest => parseUnsignedDecimal rest
  | cs => parseUnsignedDecimal cs

/-- Python `int(s)` on decimal strings (optional sign, digits). -/
def pyInt (s : String) : Option ℤ :=
  match pyStrip s.data with
  | '-' :: rest =>
    if !rest.isEmpty && rest.all Char.isDigit then some (-(digitsVal rest : ℤ)) else none
  | '+' :: rest =>
    if !rest.isEmpty && rest.all Char.isDigit then some ((digitsVal rest : ℤ)) else none
  | cs =>
    if !cs.isEmpty && cs.all Char.isDigit then some ((digitsVal cs : ℤ)) else none

/-- Python `range(start, stop, step)` as a list of integers. A zero step
raises in Python; `parse_targets` guards that case before calling this. -/
def pyRange (start stop step : ℤ) : List ℤ :=
  if 0 < step then
    (List.range ((stop - start + step - 1).toNat / step.toNat)).map fun i => start + step * i
  else if step < 0 then
    (List.range ((start - stop + (-step) - 1).toNat / (-step).toNat)).map fun i => start + step * i
  else []

/-- Contribution of the single-value form (`processor.py` lines 212–213). -/
def singleContrib (target : Option ℚ) : List ℚ :=
  match target with
  | some t => [t]
  | none => []

/-- Parse every comma piece with `float`, failing on the first bad piece
(`processor.py` lines 216–217). -/
def parseFloatList : List String → Except String (List ℚ)
  | [] => .ok []
  | s :: rest =>
    match pyFloat s with
    | some q => (parseFloatList rest).map fun l => q :: l
    | none => .error ("could not convert string to float: " ++ s)

/-- Contribution of the comma-list form (`processor.py` lines 215–217). -/
def listContrib (targets : Option String) : Except String (List ℚ) :=
  match targets with
  | none => .ok []
  | some s => parseFloatList (pySplit s ',')

/-- Contribution of the range form (`processor.py` lines 219–225): split on
`-`, require exactly two parts, convert both with `int`, then take the
inclusive-end range with the given step. -/
def rangeContrib (range_spec : Option String) (step : ℤ) : Except String (List ℚ) :=
  match range_spec with
  | none => .ok []
  | some rs =>
    match pySplit rs '-' with
    | [p1, p2] =>
      match pyInt p1 with
      | none => .error ("invalid literal for int() with base 10: " ++ p1)
      | some start =>
        match pyInt p2 with
        | none => .error ("invalid literal for int() with base 10: " ++ p2)
        | some stop =>
          if step = 0 then .error "range() arg 3 must not be zero"
          else .ok ((pyRange start (stop + 1) step).map fun z => (z : ℚ))
    | _ => .error ("Invalid range format: " ++ rs ++ ". Use 'start-end'.")

/-- Order-preserving first-occurrence deduplication (`processor.py` lines
231–236), with the already-seen values accumulated. -/
def dedupFirstAux {α : Type} [DecidableEq α] (seen : List α) : List α → List α
  | [] => []
  | x :: xs =>
    if x ∈ seen then dedupFirstAux seen xs
    else x :: dedupFirstAux (x :: seen) xs

/-- Remove duplicates while preserving the first occurrence of each value. -/
def dedupFirst {α : Type} [DecidableEq α] (l : List α) : List α :=
  dedupFirstAux [] l

/-- `processor.parse_targets`: concatenate the three specification forms in
single → list → range order, fail when the concatenation is empty, then
deduplicate preserving first occurrences. -/
def parse_targets (target : Option ℚ) (targets : Option String)
    (range_spec : Option String) (step : ℤ) : Except String (List ℚ) :=
  match listContrib targets with
  | .error e => .error e
  | .ok l2 =>
    match rangeContrib range_spec step with
    | .error e => .error e
    | .ok l3 =>
      let result := singleContrib target ++ l2 ++ l3
      if result.isEmpty then
        .error "No target BPM specified. Use --target, --targets, or --range."
      else .ok (dedupFirst result)

/-! ## Pipeline orchestration (`processor.process_file`, stretch loop) -/

/-- The stretch invocations issued by `processor.process_file` (lines
119–146) for one input file once the source BPM has been resolved: one
unconditional `stretch_to_bpm` call per target, in target-list order. -/
def process_file_calls (input_path : String) (targets : List ℚ) (output_dir : String)
    (source_bpm : ℚ) (crispness : ℤ) : List StretchCall :=
  targets.map fun t =>
    stretch_to_bpm input_path (generate_output_path input_path output_dir t)
      source_bpm t crispness
example : generate_output_path "amen_170.wav" "/out" 120.5 = "/out/amen_170/amen_120.wav" := by
  have h1 : (120.5 : ℚ).num = 241 := by norm_num
  have h2 : (120.5 : ℚ).den = 2 := by norm_num
  have h : pyTrunc (120.5 : ℚ) = 120 := by
    simp only [pyTrunc, h1, h2]
    decide
  simp only [generate_output_path, h]
  decide

/-! ## Helper lemmas -/

theorem bandToQ_bound {o : Option ℕ} {b : ℚ} (h : bandToQ o = some b) :
    90 ≤ b ∧ b ≤ 180 := by
  cases o with
  | none => simp [bandToQ] at h
  | some n =>
    simp only [bandToQ] at h
    split_ifs at h with hn
    cases h
    exact ⟨by exact_mod_cast hn.1, by exact_mod_cast hn.2⟩

theorem mem_sortedCandidates {raw : List ℚ} {a : ℚ} :
    a ∈ sortedCandidates raw ↔ a ∈ raw := by
  unfold sortedCandidates
  rw [(List.perm_insertionSort _ _).mem_iff, List.mem_dedup]

/-- The harmonically expanded candidate set of the specification: every raw
value and its four variants, filtered to `[80, 200]`. -/
def harmonicExpansion (raw : List ℚ) : List ℚ :=
  (raw.flatMap expandCandidate).filter inRange80200

theorem mem_validCandidates {raw : List ℚ} {a : ℚ} :
    a ∈ validCandidates raw ↔ a ∈ harmonicExpansion raw := by
  unfold validCandidates harmonicExpansion
  rw [(List.perm_insertionSort _ _).mem_iff, List.mem_dedup]
  simp only [List.mem_filter, List.mem_flatMap, mem_sortedCandidates]

theorem pyMinBy_mem (k : ℚ → ℚ) (xs : List ℚ) : ∀ x : ℚ, pyMinBy k x xs ∈ x :: xs := by
  induction xs with
  | nil => intro x; simp [pyMinBy]
  | cons a as ih =>
    intro x
    simp only [pyMinBy, List.foldl_cons] at ih ⊢
    have hmem := ih (if k a < k x then a else x)
    rcases List.mem_cons.mp hmem with heq | hmem2
    · rw [heq]
      split_ifs <;> simp
    · exact List.mem_cons_of_mem _ (List.mem_cons_of_mem _ hmem2)

theorem pyMinBy_le (k : ℚ → ℚ) (xs : List ℚ) :
    ∀ x : ℚ, ∀ y ∈ x :: xs, k (pyMinBy k x xs) ≤ k y := by
  induction xs with
  | nil =>
    intro x y hy
    rcases List.mem_cons.mp hy with rfl | h
    · simp [pyMinBy]
    · simp at h
  | cons a as ih =>
    intro x y hy
    simp only [pyMinBy, List.foldl_cons] at ih ⊢
    have hle_x : k (if k a < k x then a else x) ≤ k x := by
      split_ifs with h
      · exact le_of_lt h
      · exact le_refl _
    have hle_a : k (if k a < k x then a else x) ≤ k a := by
      split_ifs with h
      · exact le_refl _
      · exact not_lt.mp h
    have hmin := ih (if k a < k x then a else x) (if k a < k x then a else x)
      (List.mem_cons_self _ _)
    rcases List.mem_cons.mp hy with rfl | hy2
    · exact hmin.trans hle_x
    rcases List.mem_cons.mp hy2 with rfl | hy3
    · exact hmin.trans hle_a
    · exact ih (if k a < k x then a else x) y (List.mem_cons_of_mem _ hy3)

/-! ## Claim theorems -/

/-- C7: the stretch ratio is exactly `target / source` for all positive source
and target BPM values, with `ratio(120,120) = 1`, `ratio(170,85) = 0.5`,
`ratio(85,170) = 2`, and the ratio exceeds 1 exactly when the target is
faster than the source. -/
theorem C7_stretch_ratio_exact :
    (∀ source target : ℚ, 0 < source → 0 < target →
       calculate_stretch_ratio source target = target / source) ∧
    calculate_stretch_ratio 120 120 = 1 ∧
    calculate_stretch_ratio 170 85 = 1 / 2 ∧
    calculate_stretch_ratio 85 170 = 2 ∧
    (∀ source target : ℚ, 0 < source →
       (1 < calculate_stretch_ratio source target ↔ source < target)) := by
  refine ⟨fun _ _ _ _ => rfl, by norm_num [calculate_stretch_ratio],
    by norm_num [calculate_stretch_ratio], by norm_num [calculate_stretch_ratio], ?_⟩
  intro s t hs
  unfold calculate_stretch_ratio
  rw [lt_div_iff₀ hs, one_mul]

/-- Witness for C7 at source 120, target 240. -/
theorem C7_witness :
    calculate_stretch_ratio 120 240 = 240 / 120 ∧
    (1 < calculate_stretch_ratio 120 240 ↔ (120 : ℚ) < 240) :=
  ⟨C7_stretch_ratio_exact.1 120 240 (by norm_num) (by norm_num),
   C7_stretch_ratio_exact.2.2.2.2 120 240 (by norm_num)⟩

/-- C8: `bpms_match` with the default tolerance 3 is reflexive, accepts
half-time and double-time pairs, rejects unrelated tempos, and holds exactly
when one of the three tolerance inequalities holds. -/
theorem C8_bpms_match_spec :
    (∀ x : ℚ, bpms_match x x 3 = true) ∧
    bpms_match 170 85 3 = true ∧
    bpms_match 85 170 3 = true ∧
    bpms_match 120 90 3 = false ∧
    (∀ a b tolerance : ℚ, bpms_match a b tolerance = true ↔
       (|a - b| ≤ tolerance ∨ |a - 2 * b| ≤ tolerance ∨ |2 * a - b| ≤ tolerance)) := by
  refine ⟨?_, by norm_num [bpms_match], by norm_num [bpms_match], by norm_num [bpms_match], ?_⟩
  · intro x
    unfold bpms_match
    rw [if_pos (show |x - x| ≤ 3 by rw [sub_self, abs_zero]; norm_num)]
  · intro a b tol
    unfold bpms_match
    split_ifs with h1 h2 h3 <;> simp_all [mul_comm]

/-- Witness for C8 using the exact characterisation at `a = 100`, `b = 52`,
tolerance 4. -/
theorem C8_witness :
    bpms_match 100 52 4 = true ↔
      (|(100 : ℚ) - 52| ≤ 4 ∨ |(100 : ℚ) - 2 * 52| ≤ 4 ∨ |2 * (100 : ℚ) - 52| ≤ 4) :=
  C8_bpms_match_spec.2.2.2.2 100 52 4

/-- C9: whenever a manual BPM override is supplied, the resolved tempo is
exactly the override, whatever the filename parser or the acoustic estimator
would say. -/
theorem C9_manual_override_wins :
    ∀ (file_path : String) (warn : Bool) (acoustic : Except String ℚ) (m : ℚ),
      get_source_bpm file_path (some m) warn acoustic = .ok m :=
  fun _ _ _ _ => rfl

/-- Witness for C9 at a file whose name carries a different tempo and whose
acoustic detection fails: the manual override still wins. -/
theorem C9_witness :
    get_source_bpm "amen_170.wav" (some 93) true (.error "analysis failed") = .ok 93 :=
  C9_manual_override_wins "amen_170.wav" true (.error "analysis failed") 93

/-- C3: the filename tempo parser returns the matched numeral for the three
accepted patterns in priority order, accepts exactly the band `[90, 180]`
(90 and 180 accepted, 89 and 181 rejected), and yields no opinion otherwise. -/
theorem C3_filename_parser_spec :
    (∀ (file_path : String) (b : ℚ),
       parse_bpm_from_filename file_path = some b → 90 ≤ b ∧ b ≤ 180) ∧
    parse_bpm_from_filename "break_140bpm.wav" = some 140 ∧
    parse_bpm_from_filename "drum_loop_140BPM.wav" = some 140 ∧
    parse_bpm_from_filename "funky_90-bpm.wav" = some 90 ∧
    parse_bpm_from_filename "164_HT_Drums.wav" = some 164 ∧
    parse_bpm_from_filename "amen_170.wav" = some 170 ∧
    parse_bpm_from_filename "think_120_BPM.wav" = some 120 ∧
    parse_bpm_from_filename "loop_90.wav" = some 90 ∧
    parse_bpm_from_filename "loop_180.wav" = some 180 ∧
    parse_bpm_from_filename "loop_89.wav" = none ∧
    parse_bpm_from_filename "loop_181.wav" = none ∧
    parse_bpm_from_filename "track_01.wav" = none ∧
    parse_bpm_from_filename "sample_500.wav" = none ∧
    parse_bpm_from_filename "drum_loop.wav" = none ∧
    parse_bpm_from_filename "120-break-90bpm.wav" = some 90 ∧
    parse_bpm_from_filename "120-break-90.wav" = some 120 := by
  refine ⟨?_, by decide, by decide, by decide, by decide, by decide, by decide, by decide,
    by decide, by decide, by decide, by decide, by decide, by decide, by decide, by decide⟩
  intro fp b h
  simp only [parse_bpm_from_filename] at h
  rcases h1 : bandToQ (searchPat1 (pathStem (pathName fp)).data) with _ | v
  · rw [h1] at h
    simp only [Option.orElse] at h
    rcases h2 : bandToQ (matchPat2 (pathStem (pathName fp)).data) with _ | w
    · rw [h2] at h
      simp only [Option.orElse] at h
      exact bandToQ_bound h
    · rw [h2] at h
      simp only [Option.orElse] at h
      cases h
      exact bandToQ_bound h2
  · rw [h1] at h
    simp only [Option.orElse] at h
    cases h
    exact bandToQ_bound h1

/-- Witness for C3: the parsed tempo of `amen_170.wav` lies in the accepted
band. -/
theorem C3_witness : 90 ≤ (170 : ℚ) ∧ (170 : ℚ) ≤ 180 :=
  C3_filename_parser_spec.1 "amen_170.wav" 170 (by decide)

/-- C6: the generated output path is
`root/<stem>/<strippedBase>_<int(targetBPM)><ext>` with the stem unchanged,
the BPM marker stripped from the base, the extension preserved, and a
fractional target truncated; in particular
`path("amen_170.wav", "/out", 120) = "/out/amen_170/amen_120.wav"`. -/
theorem C6_output_path_spec :
    (∀ (input_path output_dir : String) (t : ℚ),
       generate_output_path input_path output_dir t =
         output_dir ++ "/" ++ pathStem (pathName input_path) ++ "/" ++
           (strip_bpm_from_filename (pathStem (pathName input_path)) ++ "_" ++
             intToStr (pyTrunc t) ++ pathSuffix (pathName input_path))) ∧
    generate_output_path "amen_170.wav" "/out" 120 = "/out/amen_170/amen_120.wav" ∧
    generate_output_path "amen_170.wav" "/out" 120.5 = "/out/amen_170/amen_120.wav" ∧
    generate_output_path "break-140bpm.flac" "/out" 90 = "/out/break-140bpm/break_90.flac" ∧
    generate_output_path "funky_break.wav" "/out" 120 = "/out/funky_break/funky_break_120.wav" ∧
    strip_bpm_from_filename "loop_160_BPM" = "loop" := by
  refine ⟨fun _ _ _ => rfl, by decide, ?_, by decide, by decide, by decide⟩
  have h1 : (120.5 : ℚ).num = 241 := by norm_num
  have h2 : (120.5 : ℚ).den = 2 := by norm_num
  have h : pyTrunc (120.5 : ℚ) = 120 := by
    simp only [pyTrunc, h1, h2]
    decide
  simp only [generate_output_path, h]
  decide

/-- C1 counterexample: at stretch ratio exactly 1 (source 170, target 170)
the stretch invocation still produces the output by decoding and re-encoding,
not by a byte-for-byte copy — the claimed copy branch does not exist. -/
theorem C1_counterexample :
    (stretch_to_bpm "amen_170.wav" "/out/amen_170/amen_170.wav" 170 170 5).rate = 1 ∧
    (stretch_to_bpm "amen_170.wav" "/out/amen_170/amen_170.wav" 170 170 5).method ≠
      OutputMethod.byteCopy := by
  constructor
  · show calculate_stretch_ratio 170 170 = 1
    norm_num [calculate_stretch_ratio]
  · decide

/-- C1 (amended): for every input, output root and target — including targets
equal to the source BPM, i.e. ratio exactly 1.0 — the pipeline issues an
unconditional `stretch_to_bpm` invocation whose output is produced by the
decode/time-stretch/re-encode path; no byte-identical copy is ever performed. -/
theorem C1_no_identity_copy :
    ∀ (input_path output_dir : String) (source_bpm : ℚ) (crispness : ℤ) (targets : List ℚ),
      (∀ call ∈ process_file_calls input_path targets output_dir source_bpm crispness,
         call.method = OutputMethod.reencode) ∧
      (∀ t ∈ targets,
         stretch_to_bpm input_path (generate_output_path input_path output_dir t)
             source_bpm t crispness ∈
           process_file_calls input_path targets output_dir source_bpm crispness ∧
         (stretch_to_bpm input_path (generate_output_path input_path output_dir t)
             source_bpm t crispness).rate = calculate_stretch_ratio source_bpm t) := by
  intro input_path output_dir source_bpm crispness targets
  constructor
  · intro call hc
    rcases List.mem_map.mp hc with ⟨t, _, rfl⟩
    rfl
  · intro t ht
    exact ⟨List.mem_map_of_mem _ ht, rfl⟩

/-- Witness for C1 at a singleton target list equal to the source tempo. -/
theorem C1_witness :
    stretch_to_bpm "amen_170.wav" (generate_output_path "amen_170.wav" "/out" 170) 170 170 5 ∈
      process_file_calls "amen_170.wav" [170] "/out" 170 5 ∧
    (stretch_to_bpm "amen_170.wav" (generate_output_path "amen_170.wav" "/out" 170) 170 170
        5).method = OutputMethod.reencode := by
  have h := C1_no_identity_copy "amen_170.wav" "/out" 170 5 [170]
  have hmem := (h.2 170 (by decide)).1
  exact ⟨hmem, h.1 _ hmem⟩

/-- C10: a reversed range (`start > end`) contributes no target BPMs — the
Python `range` is empty and no malformed-range error is raised — so a
reversed range as the only specification form yields the
`No target BPM specified` error. -/
theorem C10_reversed_range :
    (∀ start stop step : ℤ, 0 < step → stop < start → pyRange start (stop + 1) step = []) ∧
    rangeContrib (some "100-80") 10 = .ok [] ∧
    parse_targets none none (some "100-80") 10 =
      .error "No target BPM specified. Use --target, --targets, or --range." := by
  refine ⟨?_, by rfl, by rfl⟩
  intro start stop step hstep hrev
  simp only [pyRange, if_pos hstep]
  have h2 : (stop + 1 - start + step - 1).toNat < step.toNat := by omega
  rw [Nat.div_eq_of_lt h2]
  simp

/-- Witness for C10: the reversed range `100-80` itself. -/
theorem C10_witness : pyRange 100 (80 + 1) 10 = [] :=
  C10_reversed_range.1 100 80 10 (by norm_num) (by norm_num)

/-- C4: `parse_targets` concatenates single value → comma list → range (range
end inclusive, stepped), deduplicates preserving first occurrences, errors
when all three forms are absent, and errors on a range that does not split
into exactly two `-`-delimited parts. -/
theorem C4_parse_targets_spec :
    parse_targets (some 120) (some "120,140,120") none 10 = .ok [120, 140] ∧
    parse_targets none (some "90,120,140") none 10 = .ok [90, 120, 140] ∧
    parse_targets none none (some "80-100") 10 = .ok [80, 90, 100] ∧
    (∀ step : ℤ, parse_targets none none none step =
       .error "No target BPM specified. Use --target, --targets, or --range.") ∧
    (∀ (rs : String) (target : Option ℚ) (step : ℤ),
       (pySplit rs '-').length ≠ 2 →
       parse_targets target none (some rs) step =
         .error ("Invalid range format: " ++ rs ++ ". Use 'start-end'.")) ∧
    (∀ (target : Option ℚ) (targets : Option String) (range_spec : Option String)
       (step : ℤ) (l2 l3 : List ℚ),
       listContrib targets = .ok l2 → rangeContrib range_spec step = .ok l3 →
       singleContrib target ++ l2 ++ l3 ≠ [] →
       parse_targets target targets range_spec step =
         .ok (dedupFirst (singleContrib target ++ l2 ++ l3))) := by
  refine ⟨by rfl, by rfl, by rfl, fun _ => rfl, ?_, ?_⟩
  · intro rs target step h
    rcases hps : pySplit rs '-' with _ | ⟨p1, _ | ⟨p2, _ | ⟨p3, rest⟩⟩⟩
    · simp [parse_targets, listContrib, rangeContrib, hps]
    · simp [parse_targets, listContrib, rangeContrib, hps]
    · exact absurd (by simp [hps]) h
    · simp [parse_targets, listContrib, rangeContrib, hps]
  · intro target targets range_spec step l2 l3 h2 h3 hne
    have hfalse : (singleContrib target ++ l2 ++ l3).isEmpty = false := by
      cases hres : singleContrib target ++ l2 ++ l3 with
      | nil => exact absurd hres hne
      | cons a as => rfl
    unfold parse_targets
    rw [h2, h3]
    simp only [hfalse]
    rfl

/-- Witness for C4: the general conjuncts instantiated at concrete inputs. -/
theorem C4_witness :
    parse_targets none none none 3 =
      .error "No target BPM specified. Use --target, --targets, or --range." ∧
    parse_targets (some 99) none (some "80") 10 =
      .error "Invalid range format: 80. Use 'start-end'." ∧
    parse_targets (some 120) (some "120,140,120") none 10 =
      .ok (dedupFirst (singleContrib (some 120) ++ [120, 140, 120] ++ [])) := by
  refine ⟨C4_parse_targets_spec.2.2.2.1 3, ?_, ?_⟩
  · exact C4_parse_targets_spec.2.2.2.2.1 "80" (some 99) 10 (by decide)
  · exact C4_parse_targets_spec.2.2.2.2.2 (some 120) (some "120,140,120") none 10
      [120, 140, 120] [] (by rfl) (by rfl) (by decide)

/-- C5: tempo resolution raises a detection error naming the asset exactly
when there is no manual override, the filename parser yields nothing and
acoustic estimation raises; in every other case it returns a BPM value. -/
theorem C5_resolution_failure_iff :
    ∀ (file_path : String) (manual_bpm : Option ℚ) (warn : Bool)
      (acoustic : Except String ℚ),
      ((∃ e, get_source_bpm file_path manual_bpm warn acoustic = .error e) ↔
         (manual_bpm = none ∧ parse_bpm_from_filename file_path = none ∧
           ∃ e0, acoustic = .error e0)) ∧
      (∀ e0, parse_bpm_from_filename file_path = none → acoustic = .error e0 →
         get_source_bpm file_path none warn acoustic =
           .error ("Could not determine BPM for " ++ file_path ++ ": " ++ e0)) := by
  intro fp manual warn ac
  constructor
  · cases manual with
    | some m => simp [get_source_bpm]
    | none =>
      cases hpf : parse_bpm_from_filename fp with
      | some fb => cases ac <;> cases warn <;> simp [get_source_bpm, hpf]
      | none => cases ac <;> cases warn <;> simp [get_source_bpm, hpf]
  · intro e0 hpf hac
    subst hac
    simp [get_source_bpm, hpf]

/-- Witness for C5: a name without tempo marker and a failing acoustic
estimation produce the detection error naming the asset. -/
theorem C5_witness :
    get_source_bpm "noise.wav" none false (.error "boom") =
      .error "Could not determine BPM for noise.wav: boom" :=
  (C5_resolution_failure_iff "noise.wav" none false (.error "boom")).2 "boom" (by decide) rfl

/-- C2 counterexample: for the raw candidate sequence `[30, 20]` no raw value
lies in `[80, 200]` and the harmonic expansion is empty, so the claim
demands the very first raw candidate `30`; the code returns `20`, the head of
the *sorted* deduplicated candidate list. -/
theorem C2_counterexample :
    (∀ b ∈ [(30 : ℚ), 20], inRange80200 b = false) ∧
    harmonicExpansion [(30 : ℚ), 20] = [] ∧
    List.headI [(30 : ℚ), 20] = 30 ∧
    detect_bpm_selection [(30 : ℚ), 20] = 20 ∧
    (20 : ℚ) ≠ 30 := by
  refine ⟨by decide, ?_, by rfl, ?_, by norm_num⟩
  · norm_num [harmonicExpansion, expandCandidate, inRange80200, List.flatMap, List.filter]
  · norm_num [detect_bpm_selection, validCandidates, sortedCandidates, expandCandidate,
      inRange80200, pyMinBy, dist160, List.insertionSort, List.orderedInsert, List.dedup,
      List.filter, List.flatMap]

/-- C2 (amended): for every sequence of raw tempo candidates, the estimator
returns a raw candidate in `[80, 200]` closest to 160 when one exists;
otherwise, when the harmonic expansion (raw values and their ×2, ×1.5, ×4/3,
÷1.5 variants filtered to `[80, 200]`) is non-empty, an expanded value
closest to 160; otherwise the *smallest* raw candidate (the candidates are
deduplicated and sorted ascending before selection), or `120.0` when there
are no raw candidates at all. -/
theorem C2_estimator_selection :
    ∀ raw : List ℚ,
      ((∃ b ∈ raw, inRange80200 b = true) →
         detect_bpm_selection raw ∈ raw ∧
         inRange80200 (detect_bpm_selection raw) = true ∧
         ∀ b ∈ raw, inRange80200 b = true →
           dist160 (detect_bpm_selection raw) ≤ dist160 b) ∧
      ((∀ b ∈ raw, inRange80200 b = false) → harmonicExpansion raw ≠ [] →
         detect_bpm_selection raw ∈ harmonicExpansion raw ∧
         ∀ b ∈ harmonicExpansion raw, dist160 (detect_bpm_selection raw) ≤ dist160 b) ∧
      (harmonicExpansion raw = [] → raw ≠ [] →
         detect_bpm_selection raw ∈ raw ∧ ∀ b ∈ raw, detect_bpm_selection raw ≤ b) ∧
      (raw = [] → detect_bpm_selection raw = 120) := by
  intro raw
  refine ⟨?_, ?_, ?_, ?_⟩
  · -- a raw candidate lies in range: the minimum-distance direct detection wins
    intro h
    obtain ⟨b0, hb0, hb0r⟩ := h
    have hb0v : b0 ∈ validCandidates raw := by
      rw [mem_validCandidates]
      unfold harmonicExpansion
      rw [List.mem_filter]
      refine ⟨List.mem_flatMap.mpr ⟨b0, hb0, ?_⟩, hb0r⟩
      unfold expandCandidate
      exact List.mem_cons_self _ _
    have hb0d : b0 ∈ (sortedCandidates raw).filter inRange80200 := by
      rw [List.mem_filter]
      exact ⟨mem_sortedCandidates.mpr hb0, hb0r⟩
    obtain ⟨v, vs, hv⟩ : ∃ v vs, validCandidates raw = v :: vs := by
      cases h : validCandidates raw with
      | nil => rw [h] at hb0v; exact absurd hb0v (List.not_mem_nil b0)
      | cons v vs => exact ⟨v, vs, rfl⟩
    obtain ⟨d, ds, hd⟩ : ∃ d ds, (sortedCandidates raw).filter inRange80200 = d :: ds := by
      cases h : (sortedCandidates raw).filter inRange80200 with
      | nil => rw [h] at hb0d; exact absurd hb0d (List.not_mem_nil b0)
      | cons d ds => exact ⟨d, ds, rfl⟩
    have hdet : detect_bpm_selection raw = pyMinBy dist160 d ds := by
      unfold detect_bpm_selection
      rw [hv, hd]
    have hmem : pyMinBy dist160 d ds ∈ (sortedCandidates raw).filter inRange80200 := by
      rw [hd]
      exact pyMinBy_mem dist160 ds d
    have hmem2 := List.mem_filter.mp hmem
    refine ⟨?_, ?_, ?_⟩
    · rw [hdet]
      exact mem_sortedCandidates.mp hmem2.1
    · rw [hdet]
      exact hmem2.2
    · intro b hb hbr
      rw [hdet]
      have hbf : b ∈ (sortedCandidates raw).filter inRange80200 :=
        List.mem_filter.mpr ⟨mem_sortedCandidates.mpr hb, hbr⟩
      rw [hd] at hbf
      exact pyMinBy_le dist160 ds d b hbf
  · -- no raw candidate in range but the expansion is non-empty
    intro hall hne
    have hdirect : (sortedCandidates raw).filter inRange80200 = [] := by
      rw [List.eq_nil_iff_forall_not_mem]
      intro a ha
      have h2 := List.mem_filter.mp ha
      have h3 := hall a (mem_sortedCandidates.mp h2.1)
      rw [h2.2] at h3
      cases h3
    obtain ⟨v, vs, hv⟩ : ∃ v vs, validCandidates raw = v :: vs := by
      cases h : validCandidates raw with
      | nil =>
        have hempty : harmonicExpansion raw = [] := by
          rw [List.eq_nil_iff_forall_not_mem]
          intro a ha
          have h4 := mem_validCandidates.mpr ha
          rw [h] at h4
          exact List.not_mem_nil a h4
        exact absurd hempty hne
      | cons v vs => exact ⟨v, vs, rfl⟩
    have hdet : detect_bpm_selection raw = pyMinBy dist160 v vs := by
      unfold detect_bpm_selection
      rw [hv, hdirect]
    have hmem : pyMinBy dist160 v vs ∈ validCandidates raw := by
      rw [hv]
      exact pyMinBy_mem dist160 vs v
    constructor
    · rw [hdet]
      exact mem_validCandidates.mp hmem
    · intro b hb
      rw [hdet]
      have hbv : b ∈ validCandidates raw := mem_validCandidates.mpr hb
      rw [hv] at hbv
      exact pyMinBy_le dist160 vs v b hbv
  · -- empty expansion: the head of the sorted deduplicated raw candidates
    intro hexp hne
    have hv : validCandidates raw = [] := by
      rw [List.eq_nil_iff_forall_not_mem]
      intro a ha
      have h4 := mem_validCandidates.mp ha
      rw [hexp] at h4
      exact List.not_mem_nil a h4
    obtain ⟨c, cs, hs⟩ : ∃ c cs, sortedCandidates raw = c :: cs := by
      cases h : sortedCandidates raw with
      | nil =>
        rcases raw with _ | ⟨r, rs⟩
        · exact absurd rfl hne
        · have h5 : r ∈ sortedCandidates (r :: rs) :=
            mem_sortedCandidates.mpr (List.mem_cons_self r rs)
          rw [h] at h5
          exact absurd h5 (List.not_mem_nil r)
      | cons c cs => exact ⟨c, cs, rfl⟩
    have hdet : detect_bpm_selection raw = c := by
      unfold detect_bpm_selection
      rw [hv, hs]
    have hsorted : List.Sorted (· ≤ ·) (sortedCandidates raw) :=
      List.sorted_insertionSort _ _
    rw [hs] at hsorted
    constructor
    · rw [hdet]
      exact mem_sortedCandidates.mp (hs ▸ List.mem_cons_self c cs)
    · intro b hb
      rw [hdet]
      have hbmem : b ∈ sortedCandidates raw := mem_sortedCandidates.mpr hb
      rw [hs] at hbmem
      rcases List.mem_cons.mp hbmem with rfl | htl
      · exact le_refl _
      · exact (List.sorted_cons.mp hsorted).1 b htl
  · -- no raw candidates at all
    intro h
    subst h
    rfl

/-- Witness for C2: the three selection regimes at `[150]`, `[250]` and
`[30, 20]`, and the constant fallback at `[]`. -/
theorem C2_witness :
    (detect_bpm_selection [(150 : ℚ)] ∈ [(150 : ℚ)] ∧
      dist160 (detect_bpm_selection [(150 : ℚ)]) ≤ dist160 150) ∧
    detect_bpm_selection [(250 : ℚ)] ∈ harmonicExpansion [(250 : ℚ)] ∧
    (detect_bpm_selection [(30 : ℚ), 20] ∈ [(30 : ℚ), 20] ∧
      ∀ b ∈ [(30 : ℚ), 20], detect_bpm_selection [(30 : ℚ), 20] ≤ b) ∧
    detect_bpm_selection ([] : List ℚ) = 120 := by
  have h1 := (C2_estimator_selection [(150 : ℚ)]).1
    ⟨150, List.mem_cons_self _ _, by decide⟩
  have h2 := (C2_estimator_selection [(250 : ℚ)]).2.1 (by decide)
    (by norm_num [harmonicExpansion, expandCandidate, inRange80200, List.flatMap, List.filter])
  have h3 := (C2_estimator_selection [(30 : ℚ), 20]).2.2.1
    (by norm_num [harmonicExpansion, expandCandidate, inRange80200, List.flatMap, List.filter])
    (by decide)
  have h4 := (C2_estimator_selection ([] : List ℚ)).2.2.2 rfl
  exact ⟨⟨h1.1, h1.2.2 150 (List.mem_cons_self _ _) (by decide)⟩, h2.1, h3, h4⟩
